import Mathlib

/-!
Verification of the CSV → PostgreSQL pipeline (`src/pipeline.py`).

A shallow embedding of the data model and the three store-facing operations:
`clean_dataframe`, `ensure_table_exists`, `write_dataframe_to_postgres`.
Cells are `Option String` (a pandas cell read with `dtype=str` is either a
string or the null marker `pd.NA`); a dataframe is an ordered column-name list
together with a row list.  Python's in-place mutation discipline (the
`df.copy()` in `clean_dataframe`) is modelled separately by a small heap of
dataframe objects, and the store by an explicit table list plus an operation
log, so that frame and "no store interaction" properties are expressible.
-/

namespace Pipeline

/-- A pandas cell after `read_csv(..., dtype=str)`: a string, or null (`pd.NA`). -/
abbrev Cell := Option String

/-- A dataframe row: one cell per column. -/
abbrev Row := List Cell

/-- An in-memory tabular dataset: ordered named columns and a list of rows. -/
structure DataFrame where
  columns : List String
  rows : List Row
deriving DecidableEq

/-- Embeds `df.empty`: a pandas dataframe is empty when any axis has length 0. -/
def DataFrame.isEmptyDf (df : DataFrame) : Bool :=
  df.rows.isEmpty || df.columns.isEmpty

/-- The replacement dictionary of `pipeline.py` line 57:
`{"": pd.NA, "NA": pd.NA, "N/A": pd.NA, "null": pd.NA, "None": pd.NA}`. -/
def emptyMarkers : List String := ["", "NA", "N/A", "null", "None"]

/-- Embeds one cell of `df.replace({...})`: a cell exactly equal to one of the
dictionary keys becomes null; a null cell stays null; anything else is kept. -/
def replaceCell (c : Cell) : Cell :=
  match c with
  | none => none
  | some s => if s ∈ emptyMarkers then none else some s

/-- Embeds `df.replace({...}, inplace=True)` on the whole row list. -/
def replaceEmptyLike (rows : List Row) : List Row :=
  rows.map (List.map replaceCell)

/-- Embeds Python's `str.strip()` on the character list: drop leading
whitespace, then drop trailing whitespace. -/
def pyStrip (s : String) : String :=
  String.mk (((s.data.dropWhile Char.isWhitespace).reverse.dropWhile
    Char.isWhitespace).reverse)

/-- Embeds one cell of `Series.str.strip()`: null stays null; a string cell is
stripped. -/
def stripCell (c : Cell) : Cell :=
  c.map pyStrip

/-- Embeds the per-column `df[col] = df[col].astype("string").str.strip()` loop
(every column is string-typed since the CSV is read with `dtype=str`). -/
def stripAll (rows : List Row) : List Row :=
  rows.map (List.map stripCell)

/-- Embeds the seen-set scan behind `df.drop_duplicates()` (default
`keep="first"`): a row equal to an already seen row is dropped, the first
occurrence is kept, order is otherwise preserved. -/
def dedupFirstAux (seen : List Row) : List Row → List Row
  | [] => []
  | r :: rs =>
    if r ∈ seen then dedupFirstAux seen rs
    else r :: dedupFirstAux (r :: seen) rs

/-- Embeds `df.drop_duplicates(inplace=True)` on the row list. -/
def dedupFirst (rows : List Row) : List Row :=
  dedupFirstAux [] rows

/-- Embeds `clean_dataframe` (`pipeline.py` lines 44–67): return an empty input
unchanged; otherwise replace empty-like values, trim whitespace in every
string column, and drop exact duplicate rows, in that order. -/
def clean_dataframe (df : DataFrame) : DataFrame :=
  if df.isEmptyDf then df
  else DataFrame.mk df.columns (dedupFirst (stripAll (replaceEmptyLike df.rows)))

/-- Modelled from the spec: "Any row that is an exact duplicate of an earlier
row ... is removed; first occurrence retained, order of remaining rows
preserved" — keep the head, delete every later occurrence of it, recurse. -/
def specDedup : List Row → List Row
  | [] => []
  | r :: rs => r :: specDedup (rs.filter (fun x => x ≠ r))
termination_by l => l.length
decreasing_by
  simp only [List.length_cons]
  exact Nat.lt_succ_of_le (List.length_filter_le _ rs)

/-- Number of occurrences of a row in a row list (used to state uniqueness). -/
def countRow (r : Row) : List Row → Nat
  | [] => 0
  | a :: t => (if a = r then 1 else 0) + countRow r t

/-- The per-cell effect of one `clean_dataframe` pass before duplicate
dropping: marker replacement (line 57) followed by whitespace strip (line 62). -/
def normalizeCell (c : Cell) : Cell :=
  stripCell (replaceCell c)

/-- A heap of dataframe objects: Python references are indices into it.  Used
to state that `clean_dataframe` never mutates its caller's object. -/
structure PdHeap where
  cells : List DataFrame
deriving DecidableEq

/-- Embeds one pandas `inplace=True` operation: read the object behind the
reference and overwrite its row list in place. -/
def inplaceUpdate (h : PdHeap) (r : Nat) (f : List Row → List Row) : PdHeap :=
  match h.cells[r]? with
  | none => h
  | some df => PdHeap.mk (h.cells.set r (DataFrame.mk df.columns (f df.rows)))

/-- Embeds `clean_dataframe` at the object level (`pipeline.py` lines 51–67):
an empty dataframe is returned as the same reference; otherwise `df.copy()`
allocates a fresh object and the three `inplace=True` steps mutate only that
copy.  Returns the heap after the call and the reference to the result. -/
def clean_dataframe_ref (h : PdHeap) (r : Nat) : PdHeap × Nat :=
  match h.cells[r]? with
  | none => (h, r)
  | some df =>
    if df.isEmptyDf then (h, r)
    else
      let h1 := PdHeap.mk (h.cells ++ [df])
      let r1 := h.cells.length
      let h2 := inplaceUpdate h1 r1 replaceEmptyLike
      let h3 := inplaceUpdate h2 r1 stripAll
      let h4 := inplaceUpdate h3 r1 dedupFirst
      (h4, r1)

/-- One table of the destination PostgreSQL database. -/
structure DbTable where
  name : String
  cols : List String
  tuples : List Row
deriving DecidableEq

/-- The destination database: its list of tables (schema `public`). -/
structure Database where
  tables : List DbTable
deriving DecidableEq

/-- Embeds the `information_schema.tables` existence check of
`ensure_table_exists` (lines 79–90). -/
def tableExists (db : Database) (t : String) : Bool :=
  db.tables.any (fun tb => tb.name = t)

/-- Embeds `ensure_table_exists` (lines 70–99): check existence; when the
table is missing, `sample_df.head(0).to_sql(...)` creates it with the sample's
columns and zero rows; otherwise nothing is done. -/
def ensure_table_exists (db : Database) (table_name : String)
    (sample_df : DataFrame) : Database :=
  if tableExists db table_name then db
  else Database.mk (db.tables ++ [DbTable.mk table_name sample_df.columns []])

/-- One operation issued against the destination store. -/
inductive DbOp where
  | insertRows (table : String) (rows : List Row)
deriving DecidableEq

/-- Embeds `write_dataframe_to_postgres` (lines 102–108): an empty dataframe
returns 0 before any store call; otherwise `df.to_sql(..., if_exists="append")`
issues one bulk insert and the function returns `len(df)`.  The first
component is the list of store operations performed. -/
def write_dataframe_to_postgres (df : DataFrame) (table_name : String) :
    List DbOp × Nat :=
  if df.isEmptyDf then ([], 0)
  else ([DbOp.insertRows table_name df.rows], df.rows.length)

end Pipeline

namespace Pipeline

/-! ### Basic facts about the cell transforms -/

theorem dropWhile_head_false {p : Char → Bool} {l : List Char} {c : Char}
    (h : (l.dropWhile p).head? = some c) : p c = false := by
  induction l with
  | nil => simp [List.dropWhile] at h
  | cons a t ih =>
    by_cases hp : p a
    · rw [List.dropWhile_cons_of_pos hp] at h
      exact ih h
    · rw [List.dropWhile_cons_of_neg hp] at h
      simp only [List.head?_cons, Option.some.injEq] at h
      subst h
      simpa using hp

theorem dropWhile_of_head_false {p : Char → Bool} {l : List Char}
    (h : ∀ c, l.head? = some c → p c = false) : l.dropWhile p = l := by
  cases l with
  | nil => rfl
  | cons a t =>
    have := h a rfl
    simp [List.dropWhile_cons, this]

theorem getLast?_cons_of_ne_nil {α : Type} (a : α) {t : List α} (h : t ≠ []) :
    (a :: t).getLast? = t.getLast? := by
  cases t with
  | nil => exact absurd rfl h
  | cons b u => simp [List.getLast?_cons_cons]

theorem dropWhile_getLast? {p : Char → Bool} {l : List Char}
    (h : l.dropWhile p ≠ []) : (l.dropWhile p).getLast? = l.getLast? := by
  induction l with
  | nil => simp [List.dropWhile] at h
  | cons a t ih =>
    by_cases hp : p a
    · rw [List.dropWhile_cons_of_pos hp] at h ⊢
      have ht : t ≠ [] := by
        intro he
        rw [he] at h
        simp [List.dropWhile] at h
      rw [ih h, getLast?_cons_of_ne_nil a ht]
    · rw [List.dropWhile_cons_of_neg hp]

theorem pyStrip_idem (s : String) : pyStrip (pyStrip s) = pyStrip s := by
  unfold pyStrip
  cases s with
  | mk l =>
    simp only
    set A := l.dropWhile Char.isWhitespace with hA
    set B := A.reverse.dropWhile Char.isWhitespace with hB
    by_cases hBnil : B = []
    · simp [hBnil]
    · have hrBd : B.reverse.dropWhile Char.isWhitespace = B.reverse := by
        apply dropWhile_of_head_false
        intro c hc
        rw [List.head?_reverse] at hc
        rw [hB] at hc
        rw [dropWhile_getLast? (hB ▸ hBnil)] at hc
        rw [List.getLast?_reverse] at hc
        exact dropWhile_head_false (p := Char.isWhitespace) (hA ▸ hc)
      rw [hrBd, List.reverse_reverse]
      have hBd : B.dropWhile Char.isWhitespace = B := by
        apply dropWhile_of_head_false
        intro c hc
        exact dropWhile_head_false (hB ▸ hc)
      rw [hBd]

theorem stripCell_stripCell (c : Cell) : stripCell (stripCell c) = stripCell c := by
  cases c with
  | none => rfl
  | some s => simp [stripCell, pyStrip_idem]

/-! ### Facts about duplicate dropping -/

theorem mem_of_mem_dedupFirstAux {seen l : List Row} {r : Row}
    (h : r ∈ dedupFirstAux seen l) : r ∈ l := by
  induction l generalizing seen with
  | nil => simp [dedupFirstAux] at h
  | cons a t ih =>
    rw [dedupFirstAux] at h
    by_cases ha : a ∈ seen
    · rw [if_pos ha] at h
      exact List.mem_cons_of_mem a (ih h)
    · rw [if_neg ha] at h
      rcases List.mem_cons.mp h with he | hm
      · exact he ▸ List.mem_cons_self a t
      · exact List.mem_cons_of_mem a (ih hm)

theorem mem_dedupFirstAux_of_mem {seen l : List Row} {r : Row}
    (hl : r ∈ l) (hs : r ∉ seen) : r ∈ dedupFirstAux seen l := by
  induction l generalizing seen with
  | nil => simp at hl
  | cons a t ih =>
    rw [dedupFirstAux]
    by_cases ha : a ∈ seen
    · rw [if_pos ha]
      rcases List.mem_cons.mp hl with he | hm
      · exact absurd (he ▸ ha) hs
      · exact ih hm hs
    · rw [if_neg ha]
      by_cases he : r = a
      · exact he ▸ List.mem_cons_self a _
      · rcases List.mem_cons.mp hl with he' | hm
        · exact absurd he' he
        · refine List.mem_cons_of_mem a (ih hm ?_)
          intro hc
          rcases List.mem_cons.mp hc with hc' | hc'
          · exact he hc'
          · exact hs hc'

theorem not_mem_seen_of_mem_dedupFirstAux {seen l : List Row} {r : Row}
    (h : r ∈ dedupFirstAux seen l) : r ∉ seen := by
  induction l generalizing seen with
  | nil => simp [dedupFirstAux] at h
  | cons a t ih =>
    rw [dedupFirstAux] at h
    by_cases ha : a ∈ seen
    · rw [if_pos ha] at h
      exact ih h
    · rw [if_neg ha] at h
      rcases List.mem_cons.mp h with he | hm
      · exact he ▸ ha
      · intro hc
        exact (ih hm) (List.mem_cons_of_mem a hc)

theorem nodup_dedupFirstAux (seen l : List Row) : (dedupFirstAux seen l).Nodup := by
  induction l generalizing seen with
  | nil => simp [dedupFirstAux]
  | cons a t ih =>
    rw [dedupFirstAux]
    by_cases ha : a ∈ seen
    · rw [if_pos ha]
      exact ih seen
    · rw [if_neg ha]
      refine List.nodup_cons.mpr ⟨?_, ih (a :: seen)⟩
      intro hc
      exact (not_mem_seen_of_mem_dedupFirstAux hc) (List.mem_cons_self a seen)

theorem dedupFirstAux_sublist (seen l : List Row) :
    List.Sublist (dedupFirstAux seen l) l := by
  induction l generalizing seen with
  | nil => simp [dedupFirstAux]
  | cons a t ih =>
    rw [dedupFirstAux]
    by_cases ha : a ∈ seen
    · rw [if_pos ha]
      exact (ih seen).trans (List.sublist_cons_self a t)
    · rw [if_neg ha]
      exact List.Sublist.cons₂ a (ih (a :: seen))

theorem dedupFirstAux_of_nodup {seen l : List Row} (hn : l.Nodup)
    (hs : ∀ r ∈ l, r ∉ seen) : dedupFirstAux seen l = l := by
  induction l generalizing seen with
  | nil => rfl
  | cons a t ih =>
    rw [dedupFirstAux, if_neg (hs a (List.mem_cons_self a t))]
    have hn' := List.nodup_cons.mp hn
    congr 1
    refine ih hn'.2 ?_
    intro r hr hc
    rcases List.mem_cons.mp hc with he | hm
    · exact hn'.1 (he ▸ hr)
    · exact hs r (List.mem_cons_of_mem a hr) hm

theorem nodup_dedupFirst (l : List Row) : (dedupFirst l).Nodup :=
  nodup_dedupFirstAux [] l

theorem dedupFirst_sublist (l : List Row) : List.Sublist (dedupFirst l) l :=
  dedupFirstAux_sublist [] l

theorem mem_dedupFirst_iff {l : List Row} {r : Row} : r ∈ dedupFirst l ↔ r ∈ l :=
  ⟨mem_of_mem_dedupFirstAux, fun h => mem_dedupFirstAux_of_mem h (by simp)⟩

theorem dedupFirst_of_nodup {l : List Row} (hn : l.Nodup) : dedupFirst l = l :=
  dedupFirstAux_of_nodup hn (by simp)

theorem dedupFirst_idem (l : List Row) : dedupFirst (dedupFirst l) = dedupFirst l :=
  dedupFirst_of_nodup (nodup_dedupFirst l)

theorem countRow_eq_zero_of_not_mem {l : List Row} {r : Row} (h : r ∉ l) :
    countRow r l = 0 := by
  induction l with
  | nil => rfl
  | cons a t ih =>
    have har : a ≠ r := fun he => h (List.mem_cons.mpr (Or.inl he.symm))
    rw [countRow, if_neg har, ih (fun hm => h (List.mem_cons_of_mem a hm))]

theorem countRow_eq_one_of_nodup {l : List Row} {r : Row} (hn : l.Nodup)
    (h : r ∈ l) : countRow r l = 1 := by
  induction l with
  | nil => simp at h
  | cons a t ih =>
    have hn' := List.nodup_cons.mp hn
    rw [countRow]
    by_cases he : a = r
    · subst he
      rw [if_pos rfl, countRow_eq_zero_of_not_mem hn'.1]
    · rcases List.mem_cons.mp h with he' | hm
      · exact absurd he'.symm he
      · rw [if_neg he, ih hn'.2 hm]

theorem count_dedupFirst_eq_one {l : List Row} {r : Row} (h : r ∈ l) :
    countRow r (dedupFirst l) = 1 :=
  countRow_eq_one_of_nodup (nodup_dedupFirst l) (mem_dedupFirst_iff.mpr h)

theorem dedupFirstAux_eq_specDedup (seen l : List Row) :
    dedupFirstAux seen l = specDedup (l.filter (fun x => x ∉ seen)) := by
  induction l generalizing seen with
  | nil => simp [dedupFirstAux, specDedup]
  | cons a t ih =>
    rw [dedupFirstAux]
    by_cases ha : a ∈ seen
    · rw [if_pos ha, List.filter_cons_of_neg (by simpa using ha)]
      exact ih seen
    · rw [if_neg ha, List.filter_cons_of_pos (by simpa using ha), specDedup]
      congr 1
      rw [ih (a :: seen), List.filter_filter]
      have hfun : (fun x : Row => decide (x ∉ a :: seen)) =
          fun x : Row => decide (x ≠ a) && decide (x ∉ seen) := by
        funext x
        by_cases hx : x = a <;> by_cases hxs : x ∈ seen <;> simp [hx, hxs]
      rw [hfun]

theorem dedupFirst_eq_specDedup (l : List Row) : dedupFirst l = specDedup l := by
  rw [dedupFirst, dedupFirstAux_eq_specDedup]
  congr 1
  simp

theorem dedupFirst_ne_nil {l : List Row} (h : l ≠ []) : dedupFirst l ≠ [] := by
  cases l with
  | nil => exact absurd rfl h
  | cons a t => simp [dedupFirst, dedupFirstAux]

/-! ### The normalization pass reaches a fixed point after two applications -/

theorem stripAll_replaceEmptyLike (rows : List Row) :
    stripAll (replaceEmptyLike rows) = rows.map (List.map normalizeCell) := by
  simp [stripAll, replaceEmptyLike, List.map_map, Function.comp, normalizeCell]

theorem normalizeCell_none : normalizeCell none = none := rfl

theorem normalizeCell_some (s : String) :
    normalizeCell (some s) = if s ∈ emptyMarkers then none else some (pyStrip s) := by
  by_cases hm : s ∈ emptyMarkers <;> simp [normalizeCell, replaceCell, stripCell, hm]

theorem normalizeCell_three (c : Cell) :
    normalizeCell (normalizeCell (normalizeCell c)) =
      normalizeCell (normalizeCell c) := by
  cases c with
  | none => rfl
  | some s =>
    by_cases hm : s ∈ emptyMarkers
    · simp [normalizeCell_some, normalizeCell_none, hm]
    · by_cases hm2 : pyStrip s ∈ emptyMarkers <;>
        simp [normalizeCell_some, normalizeCell_none, hm, hm2, pyStrip_idem]

theorem map_normalizeCell_three (r : Row) :
    (r.map normalizeCell |>.map normalizeCell |>.map normalizeCell) =
      (r.map normalizeCell |>.map normalizeCell) := by
  induction r with
  | nil => rfl
  | cons c t ih => simp only [List.map_cons, normalizeCell_three, ih]

theorem map_eq_self_of_fixed {f : Row → Row} {l : List Row}
    (h : ∀ r ∈ l, f r = r) : l.map f = l := by
  induction l with
  | nil => rfl
  | cons a t ih =>
    rw [List.map_cons, h a (List.mem_cons_self a t),
      ih (fun r hr => h r (List.mem_cons_of_mem a hr))]

theorem normalizeRows_three (rows : List Row) :
    dedupFirst ((dedupFirst ((dedupFirst (rows.map (List.map normalizeCell))).map
        (List.map normalizeCell))).map (List.map normalizeCell)) =
      dedupFirst ((dedupFirst (rows.map (List.map normalizeCell))).map
        (List.map normalizeCell)) := by
  have hfix : ∀ r ∈ dedupFirst ((dedupFirst (rows.map (List.map normalizeCell))).map
      (List.map normalizeCell)), r.map normalizeCell = r := by
    intro r hr
    have hr1 : r ∈ (dedupFirst (rows.map (List.map normalizeCell))).map
        (List.map normalizeCell) := mem_of_mem_dedupFirstAux hr
    rcases List.mem_map.mp hr1 with ⟨r', hr', he'⟩
    have hr2 : r' ∈ rows.map (List.map normalizeCell) :=
      mem_of_mem_dedupFirstAux hr'
    rcases List.mem_map.mp hr2 with ⟨r0, _, he0⟩
    rw [← he', ← he0]
    exact map_normalizeCell_three r0
  rw [map_eq_self_of_fixed hfix, dedupFirst_idem]

/-! ### Shape of `clean_dataframe` -/

theorem clean_of_empty {df : DataFrame} (h : df.isEmptyDf) :
    clean_dataframe df = df := by
  rw [clean_dataframe, if_pos h]

theorem clean_of_not_empty {df : DataFrame} (h : df.isEmptyDf = false) :
    clean_dataframe df =
      DataFrame.mk df.columns (dedupFirst (stripAll (replaceEmptyLike df.rows))) := by
  rw [clean_dataframe, if_neg (by simp [h])]

theorem isEmptyDf_false_iff (df : DataFrame) :
    df.isEmptyDf = false ↔ df.rows ≠ [] ∧ df.columns ≠ [] := by
  rw [DataFrame.isEmptyDf, Bool.or_eq_false_iff]
  simp [List.isEmpty_iff]

theorem clean_not_empty {df : DataFrame} (h : df.isEmptyDf = false) :
    (clean_dataframe df).isEmptyDf = false := by
  rcases (isEmptyDf_false_iff df).mp h with ⟨hr, hc⟩
  rw [clean_of_not_empty h]
  refine (isEmptyDf_false_iff _).mpr ⟨?_, hc⟩
  refine dedupFirst_ne_nil ?_
  simp [stripAll, replaceEmptyLike, hr]

/-! ### Claim theorems -/

/-- C1 (counterexample): `clean_dataframe` is not idempotent.  On the
one-cell dataset `"  NA  "` the first pass trims the cell to the bare marker
`"NA"` (markers are replaced before trimming), and a second pass then replaces
it with null, so cleaning twice differs from cleaning once. -/
theorem clean_dataframe_not_idempotent :
    clean_dataframe (clean_dataframe (DataFrame.mk ["a"] [[some "  NA  "]])) ≠
      clean_dataframe (DataFrame.mk ["a"] [[some "  NA  "]]) := by
  decide

/-- C1 (amended): normalization reaches a fixed point after two passes: a
third application of `clean_dataframe` always equals the second (equivalently,
`clean_dataframe` is idempotent on any already-cleaned dataset, whose cells
are trimmed). -/
theorem clean_dataframe_third_pass_fixed (df : DataFrame) :
    clean_dataframe (clean_dataframe (clean_dataframe df)) =
      clean_dataframe (clean_dataframe df) := by
  by_cases h : df.isEmptyDf
  · rw [clean_of_empty h, clean_of_empty h, clean_of_empty h]
  · have h0 : df.isEmptyDf = false := by simp [h]
    have h1 := clean_not_empty h0
    have h2 := clean_not_empty h1
    rw [clean_of_not_empty h0] at h1 h2 ⊢
    rw [clean_of_not_empty h1] at h2 ⊢
    rw [clean_of_not_empty h2]
    simp only [stripAll_replaceEmptyLike]
    rw [normalizeRows_three]

/-- C4: the two-row dataset with rows `["  Bob  ", "NA"]` and `["Bob", ""]`
normalizes to the single row `["Bob", null]`: the markers become null, the
name is trimmed, and the two now-identical rows collapse to one. -/
theorem clean_dataframe_bob_scenario :
    clean_dataframe (DataFrame.mk ["name", "value"]
        [[some "  Bob  ", some "NA"], [some "Bob", some ""]]) =
      DataFrame.mk ["name", "value"] [[some "Bob", none]] := by
  decide

/-- C6: a dataset with zero data rows passes through `clean_dataframe`
unchanged: the very same dataset is returned, with zero rows and the same
columns. -/
theorem clean_dataframe_empty_passthrough (df : DataFrame) (h : df.rows = []) :
    clean_dataframe df = df ∧ (clean_dataframe df).rows = [] ∧
      (clean_dataframe df).columns = df.columns := by
  have he : df.isEmptyDf := by simp [DataFrame.isEmptyDf, h]
  refine ⟨clean_of_empty he, ?_, ?_⟩
  · rw [clean_of_empty he, h]
  · rw [clean_of_empty he]

/-- C6 (witness): the empty-passthrough theorem evaluated on a concrete
header-only dataset. -/
theorem clean_dataframe_empty_passthrough_witness :
    clean_dataframe (DataFrame.mk ["name", "value"] []) =
      DataFrame.mk ["name", "value"] [] ∧
      (clean_dataframe (DataFrame.mk ["name", "value"] [])).rows = [] ∧
      (clean_dataframe (DataFrame.mk ["name", "value"] [])).columns =
        ["name", "value"] :=
  clean_dataframe_empty_passthrough (DataFrame.mk ["name", "value"] []) rfl

/-- C10: because marker replacement (line 57) runs before whitespace trimming
(line 62), a one-pass clean of a single cell that is not character-for-character
a marker yields the trimmed string, never null: a whitespace-only cell becomes
the empty string and a whitespace-padded marker becomes the bare marker. -/
theorem clean_dataframe_strip_after_replace (s : String)
    (h : s ∉ emptyMarkers) :
    clean_dataframe (DataFrame.mk ["c"] [[some s]]) =
      DataFrame.mk ["c"] [[some (pyStrip s)]] := by
  have h0 : (DataFrame.mk ["c"] [[some s]]).isEmptyDf = false := by
    simp [DataFrame.isEmptyDf]
  rw [clean_of_not_empty h0]
  simp [replaceEmptyLike, replaceCell, h, stripAll, stripCell, dedupFirst,
    dedupFirstAux]

/-- C10 (witness): a whitespace-only cell `"   "` normalizes to `""` (not
null), and the padded marker `"  NA  "` normalizes to `"NA"` (not null). -/
theorem clean_dataframe_strip_after_replace_witness :
    clean_dataframe (DataFrame.mk ["c"] [[some "   "]]) =
      DataFrame.mk ["c"] [[some ""]] ∧
      clean_dataframe (DataFrame.mk ["c"] [[some "  NA  "]]) =
        DataFrame.mk ["c"] [[some "NA"]] :=
  ⟨(clean_dataframe_strip_after_replace "   " (by decide)).trans (by decide),
   (clean_dataframe_strip_after_replace "  NA  " (by decide)).trans (by decide)⟩

/-- C2: the marker-replacement step nulls a cell exactly when its value is
character-for-character one of `""`, `"NA"`, `"N/A"`, `"null"`, `"None"`;
every other string (case variants such as `"n/a"` included) is left
untouched by that step. -/
theorem replaceCell_exact_markers (s : String) :
    (replaceCell (some s) = none ↔
      (s = "" ∨ s = "NA" ∨ s = "N/A" ∨ s = "null" ∨ s = "None")) ∧
      (s ≠ "" → s ≠ "NA" → s ≠ "N/A" → s ≠ "null" → s ≠ "None" →
        replaceCell (some s) = some s) := by
  have hiff : s ∈ emptyMarkers ↔
      (s = "" ∨ s = "NA" ∨ s = "N/A" ∨ s = "null" ∨ s = "None") := by
    simp [emptyMarkers]
  constructor
  · rw [replaceCell]
    by_cases hm : s ∈ emptyMarkers
    · rw [if_pos hm]
      exact iff_of_true rfl (hiff.mp hm)
    · rw [if_neg hm]
      exact iff_of_false (by simp) (fun hc => hm (hiff.mpr hc))
  · intro h1 h2 h3 h4 h5
    rw [replaceCell, if_neg (fun hm => by
      rcases hiff.mp hm with h | h | h | h | h <;> simp_all)]

/-- C2 (witness): the lowercase variant `"n/a"` is not replaced, while the
exact marker `"NA"` is. -/
theorem replaceCell_exact_markers_witness :
    replaceCell (some "n/a") = some "n/a" ∧ replaceCell (some "NA") = none :=
  ⟨(replaceCell_exact_markers "n/a").2 (by decide) (by decide) (by decide)
      (by decide) (by decide),
   (replaceCell_exact_markers "NA").1.mpr (Or.inr (Or.inl rfl))⟩

/-- C3: for any dataset with at least one column, the rows of
`clean_dataframe df` are exactly the transformed rows
`stripAll (replaceEmptyLike df.rows)` with every later duplicate of an earlier
row removed (`specDedup`, the spec's formulation): the result has no duplicate
rows, each transformed row keeps exactly one occurrence, and the surviving
rows appear in their original relative order (a sublist of the transformed
row list). -/
theorem clean_dataframe_drop_duplicates (df : DataFrame)
    (hc : df.columns ≠ []) :
    (clean_dataframe df).rows = specDedup (stripAll (replaceEmptyLike df.rows)) ∧
      (clean_dataframe df).rows.Nodup ∧
      List.Sublist (clean_dataframe df).rows (stripAll (replaceEmptyLike df.rows)) ∧
      ∀ r ∈ stripAll (replaceEmptyLike df.rows),
        countRow r (clean_dataframe df).rows = 1 := by
  by_cases hr : df.rows = []
  · have he : df.isEmptyDf := by simp [DataFrame.isEmptyDf, hr]
    rw [clean_of_empty he, hr]
    refine ⟨by simp [stripAll, replaceEmptyLike, specDedup], by simp [hr], ?_, ?_⟩
    · simp [hr, stripAll, replaceEmptyLike]
    · intro r hmem
      simp [stripAll, replaceEmptyLike] at hmem
  · have h0 : df.isEmptyDf = false := (isEmptyDf_false_iff df).mpr ⟨hr, hc⟩
    rw [clean_of_not_empty h0]
    exact ⟨dedupFirst_eq_specDedup _, nodup_dedupFirst _, dedupFirst_sublist _,
      fun r hmem => count_dedupFirst_eq_one hmem⟩

/-- C3 (witness): the duplicate-dropping theorem evaluated on a concrete
dataset whose two rows become identical after the transforms. -/
theorem clean_dataframe_drop_duplicates_witness :
    (clean_dataframe (DataFrame.mk ["a"] [[some "x"], [some " x "]])).rows =
        specDedup (stripAll (replaceEmptyLike [[some "x"], [some " x "]])) ∧
      (clean_dataframe (DataFrame.mk ["a"] [[some "x"], [some " x "]])).rows.Nodup ∧
      List.Sublist (clean_dataframe (DataFrame.mk ["a"]
          [[some "x"], [some " x "]])).rows
        (stripAll (replaceEmptyLike [[some "x"], [some " x "]])) ∧
      ∀ r ∈ stripAll (replaceEmptyLike [[some "x"], [some " x "]]),
        countRow r (clean_dataframe (DataFrame.mk ["a"]
          [[some "x"], [some " x "]])).rows = 1 :=
  clean_dataframe_drop_duplicates (DataFrame.mk ["a"] [[some "x"], [some " x "]])
    (by decide)

/-- C7: appending a dataset with zero data rows returns 0 and issues no
operation against the store (`write_dataframe_to_postgres` exits on
`df.empty` before any `to_sql` call). -/
theorem write_empty_no_store_interaction (df : DataFrame) (t : String)
    (h : df.rows = []) : write_dataframe_to_postgres df t = ([], 0) := by
  have he : df.isEmptyDf := by simp [DataFrame.isEmptyDf, h]
  rw [write_dataframe_to_postgres, if_pos he]

/-- C7 (witness): the empty-write theorem evaluated on a concrete header-only
dataset. -/
theorem write_empty_no_store_interaction_witness :
    write_dataframe_to_postgres (DataFrame.mk ["name", "value"] []) "csv_data" =
      ([], 0) :=
  write_empty_no_store_interaction (DataFrame.mk ["name", "value"] [])
    "csv_data" rfl

/-- C9: a successful append of a non-empty dataset issues exactly one bulk
insert of all its rows and returns `len(df)`, the row count of the input
dataset. -/
theorem write_returns_row_count (df : DataFrame) (t : String)
    (h : df.isEmptyDf = false) :
    write_dataframe_to_postgres df t =
      ([DbOp.insertRows t df.rows], df.rows.length) := by
  rw [write_dataframe_to_postgres, if_neg (by simp [h])]

/-- C9 (witness): the row-count theorem evaluated on a concrete two-row
dataset: the append returns 2. -/
theorem write_returns_row_count_witness :
    write_dataframe_to_postgres (DataFrame.mk ["a"] [[some "x"], [some "y"]])
        "csv_data" =
      ([DbOp.insertRows "csv_data" [[some "x"], [some "y"]]], 2) :=
  write_returns_row_count (DataFrame.mk ["a"] [[some "x"], [some "y"]])
    "csv_data" (by decide)

theorem lt_length_of_getElem? {α : Type} {l : List α} {i : Nat} {x : α}
    (h : l[i]? = some x) : i < l.length := by
  by_contra hc
  rw [List.getElem?_eq_none (Nat.le_of_not_lt hc)] at h
  exact Option.noConfusion h

theorem inplaceUpdate_get_ne {hp : PdHeap} {i j : Nat}
    {f : List Row → List Row} (hne : i ≠ j) :
    (inplaceUpdate hp i f).cells[j]? = hp.cells[j]? := by
  cases hget : hp.cells[i]? with
  | none => rw [inplaceUpdate, hget]
  | some df =>
    rw [inplaceUpdate, hget]
    exact List.getElem?_set_ne hne

theorem inplaceUpdate_get_eq {hp : PdHeap} {i : Nat} {df : DataFrame}
    {f : List Row → List Row} (hget : hp.cells[i]? = some df) :
    (inplaceUpdate hp i f).cells[i]? =
      some (DataFrame.mk df.columns (f df.rows)) := by
  rw [inplaceUpdate, hget]
  exact List.getElem?_set_eq_of_lt _ (lt_length_of_getElem? hget)

/-- C5: `clean_dataframe` never mutates its caller's object: whatever
dataframe the argument reference held before the call is still there after
the call, and the returned reference holds the cleaned dataframe (the same
object when the input is empty, a fresh copy otherwise). -/
theorem clean_dataframe_no_mutation (h : PdHeap) (r : Nat) (df : DataFrame)
    (hdf : h.cells[r]? = some df) :
    (clean_dataframe_ref h r).1.cells[r]? = some df ∧
      (clean_dataframe_ref h r).1.cells[(clean_dataframe_ref h r).2]? =
        some (clean_dataframe df) := by
  by_cases hemp : df.isEmptyDf
  · have hred : clean_dataframe_ref h r = (h, r) := by
      simp only [clean_dataframe_ref, hdf, hemp, if_true]
    rw [hred]
    exact ⟨hdf, by rw [clean_of_empty hemp]; exact hdf⟩
  · have hemp' : df.isEmptyDf = false := by simp [hemp]
    have hlen : r < h.cells.length := lt_length_of_getElem? hdf
    have hne : h.cells.length ≠ r := (Nat.ne_of_lt hlen).symm
    have hc1r : (PdHeap.mk (h.cells ++ [df])).cells[r]? = some df := by
      rw [show (PdHeap.mk (h.cells ++ [df])).cells = h.cells ++ [df] from rfl,
        List.getElem?_append_left hlen]
      exact hdf
    have hc1L : (PdHeap.mk (h.cells ++ [df])).cells[h.cells.length]? = some df :=
      List.getElem?_concat_length h.cells df
    have hred : clean_dataframe_ref h r =
        (inplaceUpdate (inplaceUpdate (inplaceUpdate
            (PdHeap.mk (h.cells ++ [df])) h.cells.length replaceEmptyLike)
          h.cells.length stripAll) h.cells.length dedupFirst,
          h.cells.length) := by
      simp only [clean_dataframe_ref, hdf, hemp', Bool.false_eq_true, if_false]
    rw [hred]
    constructor
    · rw [inplaceUpdate_get_ne hne, inplaceUpdate_get_ne hne,
        inplaceUpdate_get_ne hne]
      exact hc1r
    · rw [clean_of_not_empty hemp']
      exact inplaceUpdate_get_eq (inplaceUpdate_get_eq
        (inplaceUpdate_get_eq hc1L))

/-- C5 (witness): the no-mutation theorem evaluated on a concrete one-object
heap: after the call the original dataframe is untouched at reference 0 and
the returned reference holds the cleaned dataframe. -/
theorem clean_dataframe_no_mutation_witness :
    (clean_dataframe_ref (PdHeap.mk [DataFrame.mk ["a"]
        [[some " x "], [some "x"]]]) 0).1.cells[0]? =
      some (DataFrame.mk ["a"] [[some " x "], [some "x"]]) ∧
      (clean_dataframe_ref (PdHeap.mk [DataFrame.mk ["a"]
          [[some " x "], [some "x"]]]) 0).1.cells[(clean_dataframe_ref
        (PdHeap.mk [DataFrame.mk ["a"] [[some " x "], [some "x"]]]) 0).2]? =
      some (clean_dataframe (DataFrame.mk ["a"] [[some " x "], [some "x"]])) :=
  clean_dataframe_no_mutation (PdHeap.mk [DataFrame.mk ["a"]
    [[some " x "], [some "x"]]]) 0 (DataFrame.mk ["a"] [[some " x "], [some "x"]])
    rfl

/-- C8: `ensure_table_exists` is idempotent: after one call the table exists;
a second call with the same name and sample is a no-op (the store is returned
unchanged); and when the table was initially absent, exactly one table with
that name has been created. -/
theorem ensure_table_exists_idempotent (db : Database) (t : String)
    (s : DataFrame) :
    tableExists (ensure_table_exists db t s) t = true ∧
      ensure_table_exists (ensure_table_exists db t s) t s =
        ensure_table_exists db t s ∧
      (tableExists db t = false →
        ((ensure_table_exists db t s).tables.filter
          (fun tb => tb.name = t)).length = 1) := by
  by_cases he : tableExists db t
  · rw [ensure_table_exists, if_pos he]
    exact ⟨he, by rw [ensure_table_exists, if_pos he],
      fun hc => absurd he (by simp [hc])⟩
  · have he' : tableExists db t = false := by simp [he]
    rw [ensure_table_exists, if_neg he]
    have hex : tableExists (Database.mk
        (db.tables ++ [DbTable.mk t s.columns []])) t = true := by
      rw [tableExists]
      simp
    refine ⟨hex, by rw [ensure_table_exists, if_pos hex], ?_⟩
    intro _
    have hnil : db.tables.filter (fun tb => tb.name = t) = [] := by
      rw [List.filter_eq_nil_iff]
      intro tb htb
      rw [tableExists] at he'
      have := List.any_eq_false.mp he' tb htb
      simpa using this
    simp [List.filter_append, hnil]

/-- C8 (witness): ensuring the fresh table name `csv_data` twice on an empty
store: it exists after the first call, the second call changes nothing, and
exactly one such table was created. -/
theorem ensure_table_exists_idempotent_witness :
    tableExists (ensure_table_exists (Database.mk []) "csv_data"
        (DataFrame.mk ["a"] [])) "csv_data" = true ∧
      ensure_table_exists (ensure_table_exists (Database.mk []) "csv_data"
          (DataFrame.mk ["a"] [])) "csv_data" (DataFrame.mk ["a"] []) =
        ensure_table_exists (Database.mk []) "csv_data"
          (DataFrame.mk ["a"] []) ∧
      ((ensure_table_exists (Database.mk []) "csv_data"
          (DataFrame.mk ["a"] [])).tables.filter
        (fun tb => tb.name = "csv_data")).length = 1 := by
  obtain ⟨a, b, c⟩ := ensure_table_exists_idempotent (Database.mk [])
    "csv_data" (DataFrame.mk ["a"] [])
  exact ⟨a, b, c rfl⟩

end Pipeline
